import Mathlib

/-!
Shallow embedding of the instrument pricing and Greeks engine of the
repository (backend/app/services): closed-form Black-Scholes vanilla and
call spread, cash-or-nothing digital, geometric and arithmetic Asian,
binomial CRR lattice, Monte Carlo knockout barrier, discounted forward,
finite-difference Greeks, and the portfolio aggregation layer.

Python floats are modelled as real numbers; a Python function that can
raise (ValueError / ZeroDivisionError) is modelled as returning
`Except String _`, the error payload standing for the exception message.
`math.log x` raises for `x <= 0` and `a / 0` raises; both are modelled
by an explicit guard on the log argument (in the reals `s / 0 = 0 <= 0`,
so the single guard covers the ZeroDivisionError case as well).
-/

noncomputable section

/-- Option type, the `Literal["call", "put"]` of the source. -/
inductive OptionType where
  | call : OptionType
  | put : OptionType
deriving DecidableEq

/-- services/stats.py depends on `math.erf`; the error function, embedded by
its defining Gaussian integral. -/
def erf (x : ℝ) : ℝ :=
  (2 / Real.sqrt Real.pi) * ∫ t in (0:ℝ)..x, Real.exp (-(t ^ 2))

/-- services/stats.py: `norm_cdf`. -/
def norm_cdf (x : ℝ) : ℝ :=
  0.5 * (1 + erf (x / Real.sqrt 2))

/-- services/stats.py: `norm_pdf`. -/
def norm_pdf (x : ℝ) : ℝ :=
  Real.exp (-0.5 * x * x) / Real.sqrt (2 * Real.pi)

/-- services/black_scholes.py: dataclass `BSResult`. -/
structure BSResult where
  price : ℝ
  delta : ℝ
  gamma : ℝ
  vega : ℝ
  theta : ℝ
  rho : ℝ

/-- Intrinsic value used in every `time_to_expiry <= 0` branch of the
source: `max(0, spot - strike)` for a call, `max(0, strike - spot)`
for a put. -/
def vanillaIntrinsic (ot : OptionType) (spot strike : ℝ) : ℝ :=
  match ot with
  | .call => max 0 (spot - strike)
  | .put => max 0 (strike - spot)

/-- services/black_scholes.py lines 48-75: the main (post-validation)
branch of `price_and_greeks`, transliterated. -/
def bsBody (ot : OptionType) (spot strike rate dividend_yield vol
    time_to_expiry : ℝ) : BSResult :=
  let sqrtT := Real.sqrt time_to_expiry
  let d1 := (Real.log (spot / strike)
    + (rate - dividend_yield + 0.5 * vol * vol) * time_to_expiry) / (vol * sqrtT)
  let d2 := d1 - vol * sqrtT
  let disc_r := Real.exp (-rate * time_to_expiry)
  let disc_q := Real.exp (-dividend_yield * time_to_expiry)
  let Nd1 := norm_cdf d1
  let Nd2 := norm_cdf d2
  let Nmd1 := norm_cdf (-d1)
  let Nmd2 := norm_cdf (-d2)
  let pdf_d1 := norm_pdf d1
  let gamma := (disc_q * pdf_d1) / (spot * vol * sqrtT)
  let vega := spot * disc_q * pdf_d1 * sqrtT
  match ot with
  | .call =>
      { price := spot * disc_q * Nd1 - strike * disc_r * Nd2
        delta := disc_q * Nd1
        gamma := gamma
        vega := vega
        theta := -(spot * disc_q * pdf_d1 * vol) / (2 * sqrtT)
          - rate * strike * disc_r * Nd2 + dividend_yield * spot * disc_q * Nd1
        rho := strike * time_to_expiry * disc_r * Nd2 }
  | .put =>
      { price := strike * disc_r * Nmd2 - spot * disc_q * Nmd1
        delta := disc_q * (Nd1 - 1)
        gamma := gamma
        vega := vega
        theta := -(spot * disc_q * pdf_d1 * vol) / (2 * sqrtT)
          + rate * strike * disc_r * Nmd2 - dividend_yield * spot * disc_q * Nmd1
        rho := -(strike * time_to_expiry * disc_r * Nmd2) }

/-- The at-expiry delta of `price_and_greeks` (line 42 of the source):
1 for an in-the-money call, -1 for an in-the-money put, else 0. -/
def expiryDelta (ot : OptionType) (spot strike : ℝ) : ℝ :=
  if ot = .call ∧ strike < spot then 1
  else if ot = .put ∧ spot < strike then -1
  else 0

/-- services/black_scholes.py: `price_and_greeks`.  The source validates
only `vol` explicitly; `math.log(spot / strike)` additionally raises a
ValueError when `spot / strike <= 0` (or a ZeroDivisionError when
`strike == 0`), modelled by the ratio guard. -/
def price_and_greeks (ot : OptionType) (spot strike rate dividend_yield vol
    time_to_expiry : ℝ) : Except String BSResult :=
  if time_to_expiry ≤ 0 then
    .ok { price := vanillaIntrinsic ot spot strike
          delta := expiryDelta ot spot strike
          gamma := 0, vega := 0, theta := 0, rho := 0 }
  else if vol ≤ 0 then .error "vol must be > 0"
  else if spot / strike ≤ 0 then .error "math domain error"
  else .ok (bsBody ot spot strike rate dividend_yield vol time_to_expiry)

/-- services/black_scholes.py: `call_spread_price_and_greeks`:
long one call at `strike_long`, short one call at `strike_short`. -/
def call_spread_price_and_greeks (spot strike_long strike_short rate
    dividend_yield vol time_to_expiry : ℝ) : Except String BSResult :=
  if strike_short ≤ strike_long then
    .error "strike_short must be > strike_long"
  else do
    let long_call ← price_and_greeks .call spot strike_long rate
      dividend_yield vol time_to_expiry
    let short_call ← price_and_greeks .call spot strike_short rate
      dividend_yield vol time_to_expiry
    pure { price := long_call.price - short_call.price
           delta := long_call.delta - short_call.delta
           gamma := long_call.gamma - short_call.gamma
           vega := long_call.vega - short_call.vega
           theta := long_call.theta - short_call.theta
           rho := long_call.rho - short_call.rho }

/-- services/digital.py lines 27-31: the at-expiry digital payoff, paying
`payout` when in the money (strict inequality), else 0. -/
def digitalExpiryPayoff (ot : OptionType) (spot strike payout : ℝ) : ℝ :=
  match ot with
  | .call => if strike < spot then payout else 0
  | .put => if spot < strike then payout else 0

/-- services/digital.py: `digital_cash_or_nothing_price`. -/
def digital_cash_or_nothing_price (ot : OptionType) (spot strike rate
    dividend_yield vol time_to_expiry payout : ℝ) : Except String ℝ :=
  if payout ≤ 0 then .error "payout must be > 0"
  else if time_to_expiry ≤ 0 then
    .ok (digitalExpiryPayoff ot spot strike payout)
  else if spot ≤ 0 ∨ strike ≤ 0 then .error "spot and strike must be > 0"
  else if vol ≤ 0 then .error "vol must be > 0"
  else
    let sqrtT := Real.sqrt time_to_expiry
    let d2 := (Real.log (spot / strike)
      + (rate - dividend_yield - 0.5 * vol * vol) * time_to_expiry) / (vol * sqrtT)
    let disc := Real.exp (-rate * time_to_expiry)
    let prob := match ot with | .call => norm_cdf d2 | .put => norm_cdf (-d2)
    .ok (payout * disc * prob)

/-- services/forward.py: `forward_value`, PV of a forward contract. -/
def forward_value (spot strike rate dividend_yield time_to_expiry : ℝ) :
    Except String ℝ :=
  if spot ≤ 0 ∨ strike ≤ 0 then .error "spot and strike must be > 0"
  else if time_to_expiry ≤ 0 then .ok (spot - strike)
  else .ok (spot * Real.exp (-dividend_yield * time_to_expiry)
    - strike * Real.exp (-rate * time_to_expiry))

/-- services/asian.py: `asian_geometric_continuous_price` (closed form for
the continuous geometric-average Asian option). -/
def asian_geometric_continuous_price (ot : OptionType) (spot strike rate
    dividend_yield vol time_to_expiry : ℝ) : Except String ℝ :=
  if spot ≤ 0 ∨ strike ≤ 0 then .error "spot and strike must be > 0"
  else if vol ≤ 0 then .error "vol must be > 0"
  else if time_to_expiry ≤ 0 then .ok (vanillaIntrinsic ot spot strike)
  else
    let T := time_to_expiry
    let m := Real.log spot + (rate - dividend_yield - 0.5 * vol * vol) * (T / 2)
    let v := vol * vol * (T / 3)
    let s := Real.sqrt v
    let disc := Real.exp (-rate * T)
    let eg := Real.exp (m + 0.5 * v)
    let d1 := (m - Real.log strike + v) / s
    let d2 := d1 - s
    .ok (match ot with
      | .call => disc * (eg * norm_cdf d1 - strike * norm_cdf d2)
      | .put => disc * (strike * norm_cdf (-d2) - eg * norm_cdf (-d1)))

/-- services/binomial.py lines 35-47: the risk-neutral probability used by
`binomial_crr_price`, including the conditional clamp to [0,1]. -/
def crrProbClamped (rate dividend_yield vol time_to_expiry : ℝ)
    (steps : ℕ) : ℝ :=
  let dt := time_to_expiry / steps
  let u := Real.exp (vol * Real.sqrt dt)
  let d := 1 / u
  let a := Real.exp ((rate - dividend_yield) * dt)
  let p := (a - d) / (u - d)
  if 0 ≤ p ∧ p ≤ 1 then p else min 1 (max 0 p)

/-- services/binomial.py lines 49-69: node values of the recombining CRR
tree.  `crrNode ... k j` is the value at the node with `j` up moves on
level `i = steps - k` (so `k` counts levels remaining to the terminal
layer); the Python in-place backward induction `values[j] =
f(values[j], values[j+1])` reads only the previous level, which is
exactly this recurrence. -/
def crrNode (ot : OptionType) (spot strike p disc u d : ℝ) (amer : Bool)
    (steps : ℕ) : ℕ → ℕ → ℝ
  | 0, j => vanillaIntrinsic ot (spot * u ^ j * d ^ (steps - j)) strike
  | k + 1, j =>
    let continuation := disc * (p * crrNode ot spot strike p disc u d amer steps k (j + 1)
      + (1 - p) * crrNode ot spot strike p disc u d amer steps k j)
    if amer then
      max (vanillaIntrinsic ot (spot * u ^ j * d ^ (steps - (k + 1) - j)) strike)
        continuation
    else continuation

/-- services/binomial.py: `binomial_crr_price`. -/
def binomial_crr_price (ot : OptionType) (spot strike rate dividend_yield vol
    time_to_expiry : ℝ) (steps : ℕ) (american : Bool) : Except String ℝ :=
  if steps < 1 then .error "steps must be >= 1"
  else if spot ≤ 0 ∨ strike ≤ 0 then .error "spot and strike must be > 0"
  else if time_to_expiry ≤ 0 then .ok (vanillaIntrinsic ot spot strike)
  else if vol ≤ 0 then .error "vol must be > 0"
  else
    let dt := time_to_expiry / steps
    let u := Real.exp (vol * Real.sqrt dt)
    let d := 1 / u
    let disc := Real.exp (-rate * dt)
    let p := crrProbClamped rate dividend_yield vol time_to_expiry steps
    .ok (crrNode ot spot strike p disc u d american steps steps 0)

/-- services/fd.py: dataclass `FDGreeks`. -/
structure FDGreeks where
  delta : ℝ
  gamma : ℝ
  vega : ℝ
  theta : ℝ
  rho : ℝ

/-- The `scheme` literal of services/fd.py. -/
inductive FDScheme where
  | central : FDScheme
  | forward : FDScheme
deriving DecidableEq

/-- services/fd.py: `finite_difference_greeks`.  `price_fn` is the bumped
price function of (spot, rate, vol, time_to_expiry); the source default
bumps are 1e-4 and are passed explicitly here. -/
def finite_difference_greeks (price_fn : ℝ → ℝ → ℝ → ℝ → ℝ)
    (spot rate vol time_to_expiry : ℝ)
    (spot_rel_bump vol_abs_bump rate_abs_bump time_abs_bump : ℝ)
    (scheme : FDScheme) : Except String FDGreeks :=
  if spot ≤ 0 then .error "spot must be > 0"
  else if vol ≤ 0 then .error "vol must be > 0"
  else if time_to_expiry ≤ 0 then
    .ok { delta := 0, gamma := 0, vega := 0, theta := 0, rho := 0 }
  else
    let dS := max (spot * spot_rel_bump) 1e-8
    let dV := max vol_abs_bump 1e-8
    let dR := max rate_abs_bump 1e-8
    let dT := min (max time_abs_bump 1e-8) (0.5 * time_to_expiry)
    let p0 := price_fn spot rate vol time_to_expiry
    let p_up := price_fn (spot + dS) rate vol time_to_expiry
    let p_dn := price_fn (max (spot - dS) 1e-12) rate vol time_to_expiry
    let delta := if scheme = .forward then (p_up - p0) / dS
      else (p_up - p_dn) / (2 * dS)
    let gamma := (p_up - 2 * p0 + p_dn) / (dS * dS)
    let vega := if scheme = .central then
        (price_fn spot rate (vol + dV) time_to_expiry
          - price_fn spot rate (max (vol - dV) 1e-8) time_to_expiry) / (2 * dV)
      else (price_fn spot rate (vol + dV) time_to_expiry - p0) / dV
    let rho := if scheme = .central then
        (price_fn spot (rate + dR) vol time_to_expiry
          - price_fn spot (rate - dR) vol time_to_expiry) / (2 * dR)
      else (price_fn spot (rate + dR) vol time_to_expiry - p0) / dR
    let theta := (price_fn spot rate vol (time_to_expiry - dT) - p0) / dT
    .ok { delta := delta, gamma := gamma, vega := vega, theta := theta, rho := rho }

/-- A numpy draw matrix (paths rows, steps or fixings columns). -/
abbrev DrawMatrix : Type := List (List ℝ)

/-- The numpy `.shape == (rows, cols)` test. -/
def hasShape (m : DrawMatrix) (rows cols : ℕ) : Prop :=
  List.length m = rows ∧ ∀ r ∈ m, List.length r = cols

instance (m : DrawMatrix) (rows cols : ℕ) : Decidable (hasShape m rows cols) := by
  unfold hasShape; infer_instance

/-- The `barrier_direction` literal of services/barrier.py. -/
inductive BarrierDirection where
  | up : BarrierDirection
  | down : BarrierDirection
deriving DecidableEq

/-- services/barrier.py lines 75-107, specialised to a single path: one
time step of the knockout simulation.  State is (spot level, alive);
`zi`/`ui` are this step's normal and uniform draws.  In bridge mode a
path whose endpoints are both on the safe side replaces the discrete hit
flag with the Brownian-bridge crossing decision `u < p_cross`. -/
def barrierPathStep (dir : BarrierDirection) (bb : Bool)
    (B drift diff sigma2_dt : ℝ) (st : ℝ × Bool) (zi ui : ℝ) : ℝ × Bool :=
  let s := st.1
  let alive := st.2
  let s_next := s * Real.exp (drift + diff * zi)
  let hit : Bool :=
    match dir with
    | .up =>
      let hitD : Bool := if B ≤ s_next ∨ B ≤ s then true else false
      if bb = true ∧ alive = true ∧ hitD = false ∧ s < B ∧ s_next < B then
        if ui < Real.exp (-2 * Real.log (B / s) * Real.log (B / s_next) / sigma2_dt)
          then true else false
      else hitD
    | .down =>
      let hitD : Bool := if s_next ≤ B ∨ s ≤ B then true else false
      if bb = true ∧ alive = true ∧ hitD = false ∧ B < s ∧ B < s_next then
        if ui < Real.exp (-2 * Real.log (s / B) * Real.log (s_next / B) / sigma2_dt)
          then true else false
      else hitD
  (s_next, alive && !hit)

/-- services/barrier.py lines 109-114 for one path: run all steps from
the initial spot, then the terminal call/put payoff on a surviving path
and 0 on a knocked-out path. -/
def barrierPathPayoff (ot : OptionType) (dir : BarrierDirection) (bb : Bool)
    (spot strike B drift diff sigma2_dt : ℝ) (steps : ℕ)
    (zRow uRow : List ℝ) : ℝ :=
  let fin := (List.range steps).foldl
    (fun st i => barrierPathStep dir bb B drift diff sigma2_dt st
      (zRow.getD i 0) (uRow.getD i 0)) (spot, true)
  if fin.2 then vanillaIntrinsic ot fin.1 strike else 0

/-- services/barrier.py: `barrier_knockout_mc_price`.  `gen` stands for
`np.random.default_rng(seed)` followed by `standard_normal((paths, steps))`
and (in bridge mode) `random((paths, steps))`: a deterministic function of
(seed, paths, steps) yielding the (z, u) draw matrices.  `z0`/`u0` are
the optional caller-supplied arrays. -/
def barrier_knockout_mc_price
    (gen : ℕ → ℕ → ℕ → DrawMatrix × DrawMatrix)
    (ot : OptionType) (spot strike barrier_level : ℝ)
    (dir : BarrierDirection) (rate dividend_yield vol time_to_expiry : ℝ)
    (paths steps : ℕ) (seed : ℕ) (brownian_bridge : Bool)
    (z0 u0 : Option DrawMatrix) : Except String ℝ :=
  if spot ≤ 0 ∨ strike ≤ 0 ∨ barrier_level ≤ 0 then
    .error "spot, strike, and barrier_level must be > 0"
  else if vol ≤ 0 then .error "vol must be > 0"
  else if time_to_expiry ≤ 0 then .ok (vanillaIntrinsic ot spot strike)
  else if paths < 1 ∨ steps < 1 then .error "paths and steps must be >= 1"
  else if dir = .up ∧ barrier_level ≤ spot then .ok 0
  else if dir = .down ∧ spot ≤ barrier_level then .ok 0
  else
    let T := time_to_expiry
    let dt := T / steps
    let drift := (rate - dividend_yield - 0.5 * vol * vol) * dt
    let diff := vol * Real.sqrt dt
    let sigma2_dt := vol * vol * dt
    let zu : Except String (DrawMatrix × DrawMatrix) :=
      match z0 with
      | none => .ok (gen seed paths steps)
      | some z =>
        if ¬ hasShape z paths steps then .error "z has wrong shape"
        else if brownian_bridge then
          match u0 with
          | none => .error "u is required with brownian_bridge and must match z"
          | some u =>
            if ¬ hasShape u paths steps then
              .error "u is required with brownian_bridge and must match z"
            else .ok (z, u)
        else .ok (z, [])
    match zu with
    | .error e => .error e
    | .ok zup =>
      let payoffs := (List.range paths).map (fun p =>
        barrierPathPayoff ot dir brownian_bridge spot strike barrier_level
          drift diff sigma2_dt steps (List.getD zup.1 p []) (List.getD zup.2 p []))
      .ok (Real.exp (-rate * T) * (payoffs.sum / paths))

/-- Prefix sums, the per-row `np.cumsum(..., axis=1)` of services/asian.py. -/
def cumsum (xs : List ℝ) : List ℝ :=
  (xs.scanl (fun a b => a + b) 0).tail

/-- services/asian.py lines 97-99 for one path: build the log path by
cumulative summation of the increments, exponentiate, and take the
arithmetic mean over the fixings. -/
def asianPathAvg (spot drift diff : ℝ) (fixings : ℕ) (zRow : List ℝ) : ℝ :=
  let incs := (List.range fixings).map (fun i => drift + diff * zRow.getD i 0)
  let logs := cumsum incs
  ((logs.map (fun c => Real.exp (Real.log spot + c))).sum) / fixings

/-- services/asian.py: `asian_arithmetic_mc_price`.  `gen` stands for
`np.random.default_rng(seed).standard_normal((paths, fixings))`, a
deterministic function of (seed, paths, fixings). -/
def asian_arithmetic_mc_price (gen : ℕ → ℕ → ℕ → DrawMatrix)
    (ot : OptionType) (spot strike rate dividend_yield vol time_to_expiry : ℝ)
    (fixings paths : ℕ) (seed : ℕ) (z0 : Option DrawMatrix) :
    Except String ℝ :=
  if spot ≤ 0 ∨ strike ≤ 0 then .error "spot and strike must be > 0"
  else if vol ≤ 0 then .error "vol must be > 0"
  else if time_to_expiry ≤ 0 then .ok (vanillaIntrinsic ot spot strike)
  else if fixings < 1 then .error "fixings must be >= 1"
  else if paths < 1 then .error "paths must be >= 1"
  else
    let T := time_to_expiry
    let dt := T / fixings
    let drift := (rate - dividend_yield - 0.5 * vol * vol) * dt
    let diff := vol * Real.sqrt dt
    let zE : Except String DrawMatrix :=
      match z0 with
      | none => .ok (gen seed paths fixings)
      | some z =>
        if ¬ hasShape z paths fixings then .error "z has wrong shape" else .ok z
    match zE with
    | .error e => .error e
    | .ok z =>
      let payoffs := (List.range paths).map (fun p =>
        vanillaIntrinsic ot (asianPathAvg spot drift diff fixings (List.getD z p [])) strike)
      .ok (Real.exp (-rate * T) * (payoffs.sum / paths))

/-- schemas/pricing.py: the `Greeks` model. -/
structure Greeks where
  delta : ℝ
  gamma : ℝ
  vega : ℝ
  theta : ℝ
  rho : ℝ
deriving DecidableEq

/-- services/portfolio.py: `_zero_greeks`. -/
def zero_greeks : Greeks :=
  { delta := 0, gamma := 0, vega := 0, theta := 0, rho := 0 }

/-- services/portfolio.py: `add_greeks`. -/
def add_greeks (a b : Greeks) : Greeks :=
  { delta := a.delta + b.delta, gamma := a.gamma + b.gamma
    vega := a.vega + b.vega, theta := a.theta + b.theta, rho := a.rho + b.rho }

/-- services/portfolio.py: `scale_greeks`. -/
def scale_greeks (g : Greeks) (k : ℝ) : Greeks :=
  { delta := g.delta * k, gamma := g.gamma * k, vega := g.vega * k
    theta := g.theta * k, rho := g.rho * k }

/-- services/instrument_pricer.py: dataclass `PricedLeg`. -/
structure PricedLeg where
  price_per_unit : ℝ
  greeks : Greeks

/-- The market dict consumed by the portfolio layer:
{spot, rate, dividend_yield, vol}. -/
structure Market where
  spot : ℝ
  rate : ℝ
  dividend_yield : ℝ
  vol : ℝ

/-- One portfolio leg (services/portfolio.py): `P` is the type of the
open `params` map, which the leg pricer interprets. -/
structure Leg (P : Type) where
  leg_id : String
  instrument_type : String
  method : String
  quantity : ℝ
  params : P

/-- Per-leg entry of the `results` list built by
`price_portfolio_with_greeks`: either the priced fields of a
status="ok" dict (the reported `greeks` are the per-unit Greeks,
portfolio.py line 66) or the error message of a status="error" dict. -/
inductive LegStatus where
  | priced (price_per_unit price_total : ℝ) (greeks : Greeks) : LegStatus
  | failed (error : String) : LegStatus

/-- The common fields of a per-leg result dict. -/
structure LegResult where
  leg_id : String
  instrument_type : String
  method : String
  quantity : ℝ
  status : LegStatus

/-- The loop body accumulation of services/portfolio.py lines 42-82.
`price_leg` stands for `price_leg_with_greeks(instrument_type, method,
market, params)` of services/instrument_pricer.py, which may raise.
In strict mode the first failing leg re-raises (the partially built
totals and results are discarded by the raise, modelled by returning
the error). -/
def portfolioGo {P : Type}
    (price_leg : Market → String → String → P → Except String PricedLeg)
    (market : Market) (strict : Bool) :
    List (Leg P) → ℝ → Greeks → List LegResult →
    Except String (ℝ × Greeks × List LegResult)
  | [], total_price, total_g, results => .ok (total_price, total_g, results)
  | leg :: rest, total_price, total_g, results =>
    match price_leg market leg.instrument_type leg.method leg.params with
    | .ok priced =>
      let price_total := priced.price_per_unit * leg.quantity
      let greeks_total := scale_greeks priced.greeks leg.quantity
      portfolioGo price_leg market strict rest (total_price + price_total)
        (add_greeks total_g greeks_total)
        (results ++ [{ leg_id := leg.leg_id
                       instrument_type := leg.instrument_type
                       method := leg.method, quantity := leg.quantity
                       status := .priced priced.price_per_unit price_total priced.greeks }])
    | .error exc =>
      if strict then .error exc
      else portfolioGo price_leg market strict rest total_price total_g
        (results ++ [{ leg_id := leg.leg_id
                       instrument_type := leg.instrument_type
                       method := leg.method, quantity := leg.quantity
                       status := .failed exc }])

/-- services/portfolio.py: `price_portfolio_with_greeks`. -/
def price_portfolio_with_greeks {P : Type}
    (price_leg : Market → String → String → P → Except String PricedLeg)
    (market : Market) (legs : List (Leg P)) (strict : Bool) :
    Except String (ℝ × Greeks × List LegResult) :=
  portfolioGo price_leg market strict legs 0 zero_greeks []

/-- services/portfolio.py lines 113-133: the inner per-cell loop of
`scenario_grid_totals`.  A leg with quantity 0 is skipped; a leg whose
price-only evaluation raises is skipped (`except Exception: continue`). -/
def scenarioCellTotal {P : Type}
    (price_leg_price_only : Market → String → String → P → Except String ℝ)
    (m : Market) (legs : List (Leg P)) : ℝ :=
  legs.foldl (fun total leg =>
    if leg.quantity = (0:ℝ) then total
    else
      match price_leg_price_only m leg.instrument_type leg.method leg.params with
      | .ok price => total + price * leg.quantity
      | .error _ => total) 0

/-- services/portfolio.py: `scenario_grid_totals`, grid indexed by
[vol_index][spot_index]. -/
def scenario_grid_totals {P : Type}
    (price_leg_price_only : Market → String → String → P → Except String ℝ)
    (market : Market) (legs : List (Leg P))
    (spot_shifts_pct vol_shifts : List ℝ) (rate_shift_bps : ℝ) :
    List (List ℝ) :=
  let bumped_rate := market.rate + rate_shift_bps / 10000
  vol_shifts.map (fun dv =>
    let v := max (market.vol + dv) 1e-8
    spot_shifts_pct.map (fun ds_pct =>
      let s := market.spot * (1 + ds_pct / 100)
      scenarioCellTotal price_leg_price_only
        { spot := s, rate := bumped_rate
          dividend_yield := market.dividend_yield, vol := v } legs))

/-- Whether a modelled Python call returned normally (`true`) or raised
(`false`). -/
def exceptIsOk {α : Type} : Except String α → Bool
  | .ok _ => true
  | .error _ => false

/-- Whether one leg prices successfully under the given leg pricer. -/
def legPricedOk {P : Type}
    (price_leg : Market → String → String → P → Except String PricedLeg)
    (m : Market) (leg : Leg P) : Bool :=
  exceptIsOk (price_leg m leg.instrument_type leg.method leg.params)

/-- The per-leg result dict that services/portfolio.py appends for one
leg: the priced fields on success (per-unit greeks, line 66),
status="error" with `str(exc)` on failure. -/
def legOutcome {P : Type}
    (price_leg : Market → String → String → P → Except String PricedLeg)
    (m : Market) (leg : Leg P) : LegResult :=
  match price_leg m leg.instrument_type leg.method leg.params with
  | .ok priced =>
    { leg_id := leg.leg_id, instrument_type := leg.instrument_type
      method := leg.method, quantity := leg.quantity
      status := .priced priced.price_per_unit (priced.price_per_unit * leg.quantity)
        priced.greeks }
  | .error exc =>
    { leg_id := leg.leg_id, instrument_type := leg.instrument_type
      method := leg.method, quantity := leg.quantity, status := .failed exc }

/-- Quantity-scaled price of a successfully priced leg (0 for a failed
leg). -/
def okLegPrice {P : Type}
    (price_leg : Market → String → String → P → Except String PricedLeg)
    (m : Market) (leg : Leg P) : ℝ :=
  match price_leg m leg.instrument_type leg.method leg.params with
  | .ok priced => priced.price_per_unit * leg.quantity
  | .error _ => 0

/-- Quantity-scaled Greeks of a successfully priced leg (zero for a
failed leg). -/
def okLegGreeks {P : Type}
    (price_leg : Market → String → String → P → Except String PricedLeg)
    (m : Market) (leg : Leg P) : Greeks :=
  match price_leg m leg.instrument_type leg.method leg.params with
  | .ok priced => scale_greeks priced.greeks leg.quantity
  | .error _ => zero_greeks

/-- Specification-side total price: the sum of `price_per_unit * quantity`
over only the successfully priced legs. -/
def specTotalPrice {P : Type}
    (price_leg : Market → String → String → P → Except String PricedLeg)
    (m : Market) (legs : List (Leg P)) : ℝ :=
  ((legs.filter (legPricedOk price_leg m)).map (okLegPrice price_leg m)).sum

/-- Specification-side total Greeks: the componentwise sum of the
quantity-scaled Greeks over only the successfully priced legs. -/
def specTotalGreeks {P : Type}
    (price_leg : Market → String → String → P → Except String PricedLeg)
    (m : Market) (legs : List (Leg P)) : Greeks :=
  ((legs.filter (legPricedOk price_leg m)).map (okLegGreeks price_leg m)).foldr
    add_greeks zero_greeks

/-- Concrete witness fixture: a draw generator producing empty matrices. -/
def genZero : ℕ → ℕ → ℕ → DrawMatrix × DrawMatrix := fun _ _ _ => ([], [])

/-- Concrete witness fixture: a normal-draw generator producing an empty
matrix. -/
def genZeroA : ℕ → ℕ → ℕ → DrawMatrix := fun _ _ _ => []

/-- Concrete witness fixture: the constantly-zero price function. -/
def priceFnZero : ℝ → ℝ → ℝ → ℝ → ℝ := fun _ _ _ _ => 0

/-- Concrete witness fixture: a leg pricer that prices vanilla legs at 2
per unit and raises on everything else. -/
def plFix : Market → String → String → Unit → Except String PricedLeg :=
  fun _ instrument_type _ _ =>
    if instrument_type = "vanilla" then
      .ok { price_per_unit := 2, greeks := zero_greeks }
    else .error "unsupported instrument_type"

/-- Concrete witness fixture: a price-only leg pricer that prices vanilla
legs at 1 and raises on everything else. -/
def plPriceFix : Market → String → String → Unit → Except String ℝ :=
  fun _ instrument_type _ _ =>
    if instrument_type = "vanilla" then .ok 1
    else .error "unsupported instrument_type"

/-- Concrete witness fixture market. -/
def mFix : Market :=
  { spot := 100, rate := 0.03, dividend_yield := 0, vol := 0.2 }

/-- Concrete witness fixture: a leg `plFix`/`plPriceFix` can price. -/
def legOkFix : Leg Unit :=
  { leg_id := "a", instrument_type := "vanilla", method := "black_scholes"
    quantity := 3, params := () }

/-- Concrete witness fixture: a leg `plFix`/`plPriceFix` fails on. -/
def legBadFix : Leg Unit :=
  { leg_id := "b", instrument_type := "mystery", method := "x"
    quantity := 1, params := () }

/-!  Helper lemmas. -/

/-- The error function is odd: the Gaussian integrand is even, so the
integral from 0 to -x is the negative of the integral from 0 to x. -/
theorem erf_neg (x : ℝ) : erf (-x) = -erf x := by
  unfold erf
  have h : (∫ t in (0:ℝ)..(-x), Real.exp (-(t ^ 2)))
      = -∫ t in (0:ℝ)..x, Real.exp (-(t ^ 2)) := by
    have hc := intervalIntegral.integral_comp_neg (a := (0:ℝ)) (b := x)
      (fun t => Real.exp (-(t ^ 2)))
    simp only [neg_neg, neg_sq, neg_zero] at hc
    have hs := intervalIntegral.integral_symm (a := (0:ℝ)) (b := -x)
      (f := fun t => Real.exp (-(t ^ 2))) (μ := MeasureTheory.volume)
    simp only at hc hs
    linarith [hc, hs]
  rw [h]; ring

/-- `norm_cdf x + norm_cdf (-x) = 1`, the reflection identity used for
put-call parity. -/
theorem norm_cdf_add_neg (x : ℝ) : norm_cdf x + norm_cdf (-x) = 1 := by
  unfold norm_cdf
  rw [show -x / Real.sqrt 2 = -(x / Real.sqrt 2) by ring, erf_neg]
  ring

/-- On valid inputs `price_and_greeks` takes its main branch. -/
theorem price_and_greeks_valid (ot : OptionType) (s k r q v T : ℝ)
    (hs : 0 < s) (hk : 0 < k) (hv : 0 < v) (hT : 0 < T) :
    price_and_greeks ot s k r q v T = .ok (bsBody ot s k r q v T) := by
  unfold price_and_greeks
  rw [if_neg (not_le.mpr hT), if_neg (not_le.mpr hv),
    if_neg (not_le.mpr (div_pos hs hk))]

/-- Exact put-call parity of the transliterated Black-Scholes formulas. -/
theorem bsBody_parity (s k r q v T : ℝ) :
    (bsBody .call s k r q v T).price - (bsBody .put s k r q v T).price
      = s * Real.exp (-q * T) - k * Real.exp (-r * T) := by
  have key : ∀ d1 d2 dq dr : ℝ,
      s * dq * norm_cdf d1 - k * dr * norm_cdf d2
        - (k * dr * norm_cdf (-d2) - s * dq * norm_cdf (-d1))
      = s * dq - k * dr := by
    intro d1 d2 dq dr
    have e1 : norm_cdf (-d1) = 1 - norm_cdf d1 := by
      have := norm_cdf_add_neg d1; linarith
    have e2 : norm_cdf (-d2) = 1 - norm_cdf d2 := by
      have := norm_cdf_add_neg d2; linarith
    rw [e1, e2]; ring
  simp only [bsBody]
  exact key _ _ _ _

/-!  Claim theorems. -/

/-- Claim C2: for every spot > 0, strike > 0, vol > 0, time_to_expiry > 0
and any signed rate and dividend yield, the Black-Scholes call price minus
the put price returned by `price_and_greeks` equals
`spot * exp(-q*T) - strike * exp(-rate*T)` to within 1e-6 (in the real
model the identity is exact). -/
theorem put_call_parity (s k r q v T : ℝ) (hs : 0 < s) (hk : 0 < k)
    (hv : 0 < v) (hT : 0 < T) :
    ∃ c p, price_and_greeks .call s k r q v T = .ok c
      ∧ price_and_greeks .put s k r q v T = .ok p
      ∧ |c.price - p.price - (s * Real.exp (-q * T) - k * Real.exp (-r * T))|
          ≤ 1e-6 := by
  refine ⟨_, _, price_and_greeks_valid .call s k r q v T hs hk hv hT,
    price_and_greeks_valid .put s k r q v T hs hk hv hT, ?_⟩
  rw [bsBody_parity s k r q v T]
  simp only [sub_self, abs_zero]
  norm_num

/-- Witness for C2 at spot 2, strike 3, rate 1, dividend yield -1, vol 1,
expiry 1. -/
theorem put_call_parity_witness :
    ∃ c p, price_and_greeks .call 2 3 1 (-1) 1 1 = .ok c
      ∧ price_and_greeks .put 2 3 1 (-1) 1 1 = .ok p
      ∧ |c.price - p.price - (2 * Real.exp (-(-1) * 1) - 3 * Real.exp (-1 * 1))|
          ≤ 1e-6 :=
  put_call_parity 2 3 1 (-1) 1 1 (by norm_num) (by norm_num) (by norm_num)
    (by norm_num)

/-- Claim C1: every pricer called with time_to_expiry ≤ 0 (and inputs
passing the validations that precede the expiry branch) returns exactly
the intrinsic/payoff value with every Greek zero, except the vanilla
delta sign rule; the result is `.ok`, so no division by zero or log of a
non-positive argument occurs on this boundary. -/
theorem at_expiry_boundary
    (gen : ℕ → ℕ → ℕ → DrawMatrix × DrawMatrix)
    (genA : ℕ → ℕ → ℕ → DrawMatrix)
    (price_fn : ℝ → ℝ → ℝ → ℝ → ℝ) (scheme : FDScheme)
    (ot : OptionType) (dir : BarrierDirection)
    (s k r q v T payout B sb vb rb tb : ℝ)
    (steps paths fixings seed : ℕ) (amer bb : Bool)
    (z0 u0 : Option DrawMatrix)
    (hT : T ≤ 0) (hs : 0 < s) (hk : 0 < k) (hv : 0 < v)
    (hpayout : 0 < payout) (hB : 0 < B) (hsteps : 1 ≤ steps) :
    price_and_greeks ot s k r q v T
      = .ok { price := vanillaIntrinsic ot s k, delta := expiryDelta ot s k
              gamma := 0, vega := 0, theta := 0, rho := 0 }
  ∧ binomial_crr_price ot s k r q v T steps amer = .ok (vanillaIntrinsic ot s k)
  ∧ digital_cash_or_nothing_price ot s k r q v T payout
      = .ok (digitalExpiryPayoff ot s k payout)
  ∧ asian_geometric_continuous_price ot s k r q v T
      = .ok (vanillaIntrinsic ot s k)
  ∧ asian_arithmetic_mc_price genA ot s k r q v T fixings paths seed z0
      = .ok (vanillaIntrinsic ot s k)
  ∧ barrier_knockout_mc_price gen ot s k B dir r q v T paths steps seed bb z0 u0
      = .ok (vanillaIntrinsic ot s k)
  ∧ forward_value s k r q T = .ok (s - k)
  ∧ finite_difference_greeks price_fn s r v T sb vb rb tb scheme
      = .ok { delta := 0, gamma := 0, vega := 0, theta := 0, rho := 0 } := by
  have hsk : ¬ (s ≤ 0 ∨ k ≤ 0) := by push_neg; exact ⟨hs, hk⟩
  have hskB : ¬ (s ≤ 0 ∨ k ≤ 0 ∨ B ≤ 0) := by push_neg; exact ⟨hs, hk, hB⟩
  refine ⟨?_, ?_, ?_, ?_, ?_, ?_, ?_, ?_⟩
  · unfold price_and_greeks; rw [if_pos hT]
  · unfold binomial_crr_price
    rw [if_neg (by omega : ¬ steps < 1), if_neg hsk, if_pos hT]
  · unfold digital_cash_or_nothing_price
    rw [if_neg (not_le.mpr hpayout), if_pos hT]
  · unfold asian_geometric_continuous_price
    rw [if_neg hsk, if_neg (not_le.mpr hv), if_pos hT]
  · unfold asian_arithmetic_mc_price
    rw [if_neg hsk, if_neg (not_le.mpr hv), if_pos hT]
  · unfold barrier_knockout_mc_price
    rw [if_neg hskB, if_neg (not_le.mpr hv), if_pos hT]
  · unfold forward_value; rw [if_neg hsk, if_pos hT]
  · unfold finite_difference_greeks
    rw [if_neg (not_le.mpr hs), if_neg (not_le.mpr hv), if_pos hT]

/-- Witness for C1 at spot 2, strike 1, expiry 0, payout 1, barrier 3,
one step/path/fixing. -/
theorem at_expiry_boundary_witness :
    price_and_greeks .call 2 1 (1/10) 0 1 0
      = .ok { price := vanillaIntrinsic .call 2 1, delta := expiryDelta .call 2 1
              gamma := 0, vega := 0, theta := 0, rho := 0 }
  ∧ binomial_crr_price .call 2 1 (1/10) 0 1 0 1 false
      = .ok (vanillaIntrinsic .call 2 1)
  ∧ digital_cash_or_nothing_price .call 2 1 (1/10) 0 1 0 1
      = .ok (digitalExpiryPayoff .call 2 1 1)
  ∧ asian_geometric_continuous_price .call 2 1 (1/10) 0 1 0
      = .ok (vanillaIntrinsic .call 2 1)
  ∧ asian_arithmetic_mc_price genZeroA .call 2 1 (1/10) 0 1 0 1 1 0 none
      = .ok (vanillaIntrinsic .call 2 1)
  ∧ barrier_knockout_mc_price genZero .call 2 1 3 .up (1/10) 0 1 0 1 1 0 false none none
      = .ok (vanillaIntrinsic .call 2 1)
  ∧ forward_value 2 1 (1/10) 0 0 = .ok (2 - 1)
  ∧ finite_difference_greeks priceFnZero 2 (1/10) 1 0 1e-4 1e-4 1e-4 1e-4 .central
      = .ok { delta := 0, gamma := 0, vega := 0, theta := 0, rho := 0 } :=
  at_expiry_boundary genZero genZeroA priceFnZero .central .call .up
    2 1 (1/10) 0 1 0 1 3 1e-4 1e-4 1e-4 1e-4 1 1 1 0 false false none none
    (by norm_num) (by norm_num) (by norm_num) (by norm_num) (by norm_num)
    (by norm_num) (by norm_num)

/-- Claim C6: on valid inputs with time_to_expiry > 0, a spot already at
or beyond an up (resp. down) barrier makes `barrier_knockout_mc_price`
return exactly 0, for any draw source (the early return precedes draw
generation and simulation). -/
theorem barrier_immediate_knockout
    (gen : ℕ → ℕ → ℕ → DrawMatrix × DrawMatrix) (ot : OptionType)
    (dir : BarrierDirection) (s k B r q v T : ℝ) (paths steps seed : ℕ)
    (bb : Bool) (z0 u0 : Option DrawMatrix)
    (hs : 0 < s) (hk : 0 < k) (hB : 0 < B) (hv : 0 < v) (hT : 0 < T)
    (hpaths : 1 ≤ paths) (hsteps : 1 ≤ steps)
    (hko : (dir = .up ∧ B ≤ s) ∨ (dir = .down ∧ s ≤ B)) :
    barrier_knockout_mc_price gen ot s k B dir r q v T paths steps seed bb z0 u0
      = .ok 0 := by
  unfold barrier_knockout_mc_price
  have hskB : ¬ (s ≤ 0 ∨ k ≤ 0 ∨ B ≤ 0) := by push_neg; exact ⟨hs, hk, hB⟩
  rw [if_neg hskB, if_neg (not_le.mpr hv), if_neg (not_le.mpr hT),
    if_neg (by omega : ¬ (paths < 1 ∨ steps < 1))]
  rcases hko with ⟨hd, hbs⟩ | ⟨hd, hbs⟩
  · rw [if_pos ⟨hd, hbs⟩]
  · subst hd
    rw [if_neg (by simp : ¬ (BarrierDirection.down = .up ∧ B ≤ s)),
      if_pos ⟨rfl, hbs⟩]

/-- Witness for C6: spot 5 at an up barrier of 5 prices to 0. -/
theorem barrier_immediate_knockout_witness :
    barrier_knockout_mc_price genZero .call 5 1 5 .up 0 0 1 1 1 1 0 false none none
      = .ok 0 :=
  barrier_immediate_knockout genZero .call .up 5 1 5 0 0 1 1 1 1 0 false none none
    (by norm_num) (by norm_num) (by norm_num) (by norm_num) (by norm_num)
    (by norm_num) (by norm_num) (Or.inl ⟨rfl, by norm_num⟩)

/-- A conditionally clamped value always lies in [0, 1]. -/
theorem clamp01_bounds (p : ℝ) :
    0 ≤ (if 0 ≤ p ∧ p ≤ 1 then p else min 1 (max 0 p))
  ∧ (if 0 ≤ p ∧ p ≤ 1 then p else min 1 (max 0 p)) ≤ 1 := by
  by_cases hc : 0 ≤ p ∧ p ≤ 1
  · rw [if_pos hc]; exact hc
  · rw [if_neg hc]
    exact ⟨le_min (by norm_num) (le_max_left 0 p), min_le_left 1 _⟩

/-- The risk-neutral probability used by the lattice lies in [0, 1]. -/
theorem crrProbClamped_bounds (r q v T : ℝ) (steps : ℕ) :
    0 ≤ crrProbClamped r q v T steps ∧ crrProbClamped r q v T steps ≤ 1 := by
  unfold crrProbClamped
  exact clamp01_bounds _

/-- On valid inputs `binomial_crr_price` takes its main branch and prices
from the root node of the lattice recurrence. -/
theorem binomial_crr_price_valid (ot : OptionType) (s k r q v T : ℝ)
    (steps : ℕ) (amer : Bool) (hs : 0 < s) (hk : 0 < k) (hv : 0 < v)
    (hT : 0 < T) (hsteps : 1 ≤ steps) :
    binomial_crr_price ot s k r q v T steps amer
      = .ok (crrNode ot s k (crrProbClamped r q v T steps)
          (Real.exp (-r * (T / (steps : ℝ))))
          (Real.exp (v * Real.sqrt (T / (steps : ℝ))))
          (1 / Real.exp (v * Real.sqrt (T / (steps : ℝ)))) amer steps steps 0) := by
  unfold binomial_crr_price
  rw [if_neg (by omega : ¬ steps < 1),
    if_neg (by push_neg; exact ⟨hs, hk⟩ : ¬ (s ≤ 0 ∨ k ≤ 0)),
    if_neg (not_le.mpr hT), if_neg (not_le.mpr hv)]

/-- Claim C5: on every valid input the binomial pricer returns normally
(the clamp prevents any failure from p falling outside [0,1]), and the
probability it feeds into the backward induction always lies in [0,1]. -/
theorem binomial_prob_clamped_safe (ot : OptionType) (s k r q v T : ℝ)
    (steps : ℕ) (amer : Bool) (hs : 0 < s) (hk : 0 < k) (hv : 0 < v)
    (hT : 0 < T) (hsteps : 1 ≤ steps) :
    (∃ val, binomial_crr_price ot s k r q v T steps amer = .ok val)
  ∧ 0 ≤ crrProbClamped r q v T steps ∧ crrProbClamped r q v T steps ≤ 1 :=
  ⟨⟨_, binomial_crr_price_valid ot s k r q v T steps amer hs hk hv hT hsteps⟩,
    crrProbClamped_bounds r q v T steps⟩

/-- Witness for C5 at an extreme rate (rate 50, vol 0.1) that drives the
unclamped p far above 1. -/
theorem binomial_prob_clamped_safe_witness :
    (∃ val, binomial_crr_price .call 100 100 50 0 (1/10) 1 2 false = .ok val)
  ∧ 0 ≤ crrProbClamped 50 0 (1/10) 1 2 ∧ crrProbClamped 50 0 (1/10) 1 2 ≤ 1 :=
  binomial_prob_clamped_safe .call 100 100 50 0 (1/10) 1 2 false
    (by norm_num) (by norm_num) (by norm_num) (by norm_num) (by norm_num)

/-- European node values never exceed American node values: at every
level the American value takes max(intrinsic, continuation) and the
continuation operator is monotone when p ∈ [0,1] and the discount is
nonnegative. -/
theorem crrNode_euro_le_amer (ot : OptionType) (s k p disc u d : ℝ)
    (steps : ℕ) (hp0 : 0 ≤ p) (hp1 : p ≤ 1) (hdisc : 0 ≤ disc)
    (kk j : ℕ) :
    crrNode ot s k p disc u d false steps kk j
      ≤ crrNode ot s k p disc u d true steps kk j := by
  induction kk generalizing j with
  | zero => exact le_refl _
  | succ n ih =>
    have unfT : crrNode ot s k p disc u d true steps (n + 1) j
        = max (vanillaIntrinsic ot (s * u ^ j * d ^ (steps - (n + 1) - j)) k)
            (disc * (p * crrNode ot s k p disc u d true steps n (j + 1)
              + (1 - p) * crrNode ot s k p disc u d true steps n j)) := rfl
    have unfF : crrNode ot s k p disc u d false steps (n + 1) j
        = disc * (p * crrNode ot s k p disc u d false steps n (j + 1)
            + (1 - p) * crrNode ot s k p disc u d false steps n j) := rfl
    rw [unfT, unfF]
    have hq : (0:ℝ) ≤ 1 - p := by linarith
    have hcomb := add_le_add (mul_le_mul_of_nonneg_left (ih (j + 1)) hp0)
      (mul_le_mul_of_nonneg_left (ih j) hq)
    exact le_trans (mul_le_mul_of_nonneg_left hcomb hdisc) (le_max_right _ _)

/-- Claim C9 (implicit): with identical parameters and step count, the
American lattice value is at least the European one, because every
interior node takes max(intrinsic, continuation) ≥ continuation. -/
theorem binomial_american_ge_european (ot : OptionType) (s k r q v T : ℝ)
    (steps : ℕ) (hs : 0 < s) (hk : 0 < k) (hv : 0 < v) (hT : 0 < T)
    (hsteps : 1 ≤ steps) :
    ∃ e a, binomial_crr_price ot s k r q v T steps false = .ok e
      ∧ binomial_crr_price ot s k r q v T steps true = .ok a ∧ e ≤ a := by
  refine ⟨_, _, binomial_crr_price_valid ot s k r q v T steps false hs hk hv hT hsteps,
    binomial_crr_price_valid ot s k r q v T steps true hs hk hv hT hsteps, ?_⟩
  exact crrNode_euro_le_amer ot s k _ _ _ _ steps
    (crrProbClamped_bounds r q v T steps).1 (crrProbClamped_bounds r q v T steps).2
    (le_of_lt (Real.exp_pos _)) steps 0

/-- Witness for C9: an at-the-money put on a 3-step tree. -/
theorem binomial_american_ge_european_witness :
    ∃ e a, binomial_crr_price .put 100 100 (1/20) 0 (1/4) 1 3 false = .ok e
      ∧ binomial_crr_price .put 100 100 (1/20) 0 (1/4) 1 3 true = .ok a
      ∧ e ≤ a :=
  binomial_american_ge_european .put 100 100 (1/20) 0 (1/4) 1 3
    (by norm_num) (by norm_num) (by norm_num) (by norm_num) (by norm_num)

/-- Claim C3: with no caller-supplied draw arrays, the Monte Carlo prices
depend on the seeded draw source only through the draws it yields for the
given (seed, paths, steps/fixings); in particular two calls with
identical seed, path count, step/fixing count, market inputs and params
(same deterministic generator) return identical prices. -/
theorem mc_reproducibility
    (gen1 gen2 : ℕ → ℕ → ℕ → DrawMatrix × DrawMatrix)
    (genA1 genA2 : ℕ → ℕ → ℕ → DrawMatrix)
    (ot : OptionType) (dir : BarrierDirection) (s k B r q v T : ℝ)
    (paths steps fixings seed seedA : ℕ) (bb : Bool)
    (hgen : gen1 seed paths steps = gen2 seed paths steps)
    (hgenA : genA1 seedA paths fixings = genA2 seedA paths fixings) :
    barrier_knockout_mc_price gen1 ot s k B dir r q v T paths steps seed bb none none
      = barrier_knockout_mc_price gen2 ot s k B dir r q v T paths steps seed bb none none
  ∧ asian_arithmetic_mc_price genA1 ot s k r q v T fixings paths seedA none
      = asian_arithmetic_mc_price genA2 ot s k r q v T fixings paths seedA none := by
  constructor
  · unfold barrier_knockout_mc_price
    rw [hgen]
  · unfold asian_arithmetic_mc_price
    rw [hgenA]

/-- Witness for C3: repeated calls with the same generator and inputs. -/
theorem mc_reproducibility_witness :
    barrier_knockout_mc_price genZero .call 100 100 120 .up 0 0 (1/5) 1 2 2 7 false none none
      = barrier_knockout_mc_price genZero .call 100 100 120 .up 0 0 (1/5) 1 2 2 7 false none none
  ∧ asian_arithmetic_mc_price genZeroA .call 100 100 0 0 (1/5) 1 2 2 11 none
      = asian_arithmetic_mc_price genZeroA .call 100 100 0 0 (1/5) 1 2 2 11 none :=
  mc_reproducibility genZero genZero genZeroA genZeroA .call .up 100 100 120
    0 0 (1/5) 1 2 2 2 7 11 false rfl rfl

/-- Claim C8: for strike_short > strike_long the call spread is exactly
the componentwise difference of the two vanilla calls priced through the
same formula path; for strike_short ≤ strike_long it raises a
configuration error instead. -/
theorem call_spread_decomposition (s K1 K2 r q v T : ℝ) (L S : BSResult)
    (hL : price_and_greeks .call s K1 r q v T = .ok L)
    (hS : price_and_greeks .call s K2 r q v T = .ok S) :
    (K1 < K2 → call_spread_price_and_greeks s K1 K2 r q v T
       = .ok { price := L.price - S.price, delta := L.delta - S.delta
               gamma := L.gamma - S.gamma, vega := L.vega - S.vega
               theta := L.theta - S.theta, rho := L.rho - S.rho })
  ∧ (K2 ≤ K1 → call_spread_price_and_greeks s K1 K2 r q v T
       = .error "strike_short must be > strike_long") := by
  constructor
  · intro hK
    unfold call_spread_price_and_greeks
    rw [if_neg (not_le.mpr hK), hL, hS]
    rfl
  · intro hK
    unfold call_spread_price_and_greeks
    rw [if_pos hK]

/-- Witness for C8 at spot 100, long strike 100, short strike 110 (and
the swapped strike order for the error case). -/
theorem call_spread_decomposition_witness :
    call_spread_price_and_greeks 100 100 110 (1/20) 0 (1/5) 1
      = .ok { price := (bsBody .call 100 100 (1/20) 0 (1/5) 1).price
                - (bsBody .call 100 110 (1/20) 0 (1/5) 1).price
              delta := (bsBody .call 100 100 (1/20) 0 (1/5) 1).delta
                - (bsBody .call 100 110 (1/20) 0 (1/5) 1).delta
              gamma := (bsBody .call 100 100 (1/20) 0 (1/5) 1).gamma
                - (bsBody .call 100 110 (1/20) 0 (1/5) 1).gamma
              vega := (bsBody .call 100 100 (1/20) 0 (1/5) 1).vega
                - (bsBody .call 100 110 (1/20) 0 (1/5) 1).vega
              theta := (bsBody .call 100 100 (1/20) 0 (1/5) 1).theta
                - (bsBody .call 100 110 (1/20) 0 (1/5) 1).theta
              rho := (bsBody .call 100 100 (1/20) 0 (1/5) 1).rho
                - (bsBody .call 100 110 (1/20) 0 (1/5) 1).rho }
  ∧ call_spread_price_and_greeks 100 110 100 (1/20) 0 (1/5) 1
      = .error "strike_short must be > strike_long" :=
  ⟨(call_spread_decomposition 100 100 110 (1/20) 0 (1/5) 1 _ _
      (price_and_greeks_valid .call 100 100 (1/20) 0 (1/5) 1 (by norm_num)
        (by norm_num) (by norm_num) (by norm_num))
      (price_and_greeks_valid .call 100 110 (1/20) 0 (1/5) 1 (by norm_num)
        (by norm_num) (by norm_num) (by norm_num))).1 (by norm_num),
   (call_spread_decomposition 100 110 100 (1/20) 0 (1/5) 1 _ _
      (price_and_greeks_valid .call 100 110 (1/20) 0 (1/5) 1 (by norm_num)
        (by norm_num) (by norm_num) (by norm_num))
      (price_and_greeks_valid .call 100 100 (1/20) 0 (1/5) 1 (by norm_num)
        (by norm_num) (by norm_num) (by norm_num))).2 (by norm_num)⟩

/-- Counterexample to C7 as stated: the Black-Scholes vanilla pricer,
called with spot = -1 ≤ 0 and strike = -1 ≤ 0, vol 0.2 and expiry 1,
returns normally (the source never validates spot/strike; the log
argument spot/strike = 1 is positive, so not even `math.log` raises). -/
theorem closed_form_domain_errors_counterexample :
    exceptIsOk (price_and_greeks .call (-1) (-1) 0 0 (1/5) 1) = true := by
  unfold price_and_greeks
  rw [if_neg (by norm_num : ¬ ((1:ℝ) ≤ 0)),
    if_neg (by norm_num : ¬ ((1:ℝ)/5 ≤ 0)),
    if_neg (by norm_num : ¬ ((-1:ℝ)/(-1) ≤ 0))]
  rfl

/-- Claim C7 amended: with time_to_expiry > 0, spot ≤ 0 or strike ≤ 0
raises a domain error in the digital, geometric Asian and forward
pricers (for the latter two even at expiry), while the Black-Scholes
vanilla pricer raises only when the log argument spot/strike is
non-positive; vol ≤ 0 raises for vanilla and digital when
time_to_expiry > 0 and for the geometric Asian at any expiry; at or
after expiry vol is not validated by the vanilla, digital and forward
pricers. -/
theorem closed_form_domain_errors_amended (ot : OptionType)
    (s k r q v T payout : ℝ) :
    ((s ≤ 0 ∨ k ≤ 0) → 0 < T →
       exceptIsOk (digital_cash_or_nothing_price ot s k r q v T payout) = false)
  ∧ ((s ≤ 0 ∨ k ≤ 0) →
       exceptIsOk (asian_geometric_continuous_price ot s k r q v T) = false)
  ∧ ((s ≤ 0 ∨ k ≤ 0) → exceptIsOk (forward_value s k r q T) = false)
  ∧ (0 < T → s / k ≤ 0 →
       exceptIsOk (price_and_greeks ot s k r q v T) = false)
  ∧ (0 < T → v ≤ 0 → exceptIsOk (price_and_greeks ot s k r q v T) = false)
  ∧ (0 < T → v ≤ 0 →
       exceptIsOk (digital_cash_or_nothing_price ot s k r q v T payout) = false)
  ∧ (v ≤ 0 →
       exceptIsOk (asian_geometric_continuous_price ot s k r q v T) = false)
  ∧ (T ≤ 0 → exceptIsOk (price_and_greeks ot s k r q v T) = true)
  ∧ (T ≤ 0 → 0 < payout →
       exceptIsOk (digital_cash_or_nothing_price ot s k r q v T payout) = true)
  ∧ (T ≤ 0 → 0 < s → 0 < k →
       exceptIsOk (forward_value s k r q T) = true) := by
  refine ⟨?_, ?_, ?_, ?_, ?_, ?_, ?_, ?_, ?_, ?_⟩
  · intro hsk hT
    unfold digital_cash_or_nothing_price
    by_cases hp : payout ≤ 0
    · rw [if_pos hp]; rfl
    · rw [if_neg hp, if_neg (not_le.mpr hT), if_pos hsk]; rfl
  · intro hsk
    unfold asian_geometric_continuous_price
    rw [if_pos hsk]; rfl
  · intro hsk
    unfold forward_value
    rw [if_pos hsk]; rfl
  · intro hT hratio
    unfold price_and_greeks
    rw [if_neg (not_le.mpr hT)]
    by_cases hv2 : v ≤ 0
    · rw [if_pos hv2]; rfl
    · rw [if_neg hv2, if_pos hratio]; rfl
  · intro hT hv2
    unfold price_and_greeks
    rw [if_neg (not_le.mpr hT), if_pos hv2]; rfl
  · intro hT hv2
    unfold digital_cash_or_nothing_price
    by_cases hp : payout ≤ 0
    · rw [if_pos hp]; rfl
    · rw [if_neg hp, if_neg (not_le.mpr hT)]
      by_cases hsk : s ≤ 0 ∨ k ≤ 0
      · rw [if_pos hsk]; rfl
      · rw [if_neg hsk, if_pos hv2]; rfl
  · intro hv2
    unfold asian_geometric_continuous_price
    by_cases hsk : s ≤ 0 ∨ k ≤ 0
    · rw [if_pos hsk]; rfl
    · rw [if_neg hsk, if_pos hv2]; rfl
  · intro hTle
    unfold price_and_greeks
    rw [if_pos hTle]; rfl
  · intro hTle hp
    unfold digital_cash_or_nothing_price
    rw [if_neg (not_le.mpr hp), if_pos hTle]; rfl
  · intro hTle hs hk
    unfold forward_value
    rw [if_neg (by push_neg; exact ⟨hs, hk⟩ : ¬ (s ≤ 0 ∨ k ≤ 0)), if_pos hTle]
    rfl

/-- Witness for the amended C7 at concrete inputs exercising each
conjunct. -/
theorem closed_form_domain_errors_amended_witness :
    exceptIsOk (digital_cash_or_nothing_price .call (-1) 1 0 0 1 1 1) = false
  ∧ exceptIsOk (asian_geometric_continuous_price .call (-1) 1 0 0 1 0) = false
  ∧ exceptIsOk (forward_value (-1) 1 0 0 1) = false
  ∧ exceptIsOk (price_and_greeks .call 0 1 0 0 1 1) = false
  ∧ exceptIsOk (price_and_greeks .put 1 1 0 0 (-1) 1) = false
  ∧ exceptIsOk (digital_cash_or_nothing_price .call 1 1 0 0 (-1) 1 1) = false
  ∧ exceptIsOk (asian_geometric_continuous_price .call 1 1 0 0 (-1) 0) = false
  ∧ exceptIsOk (price_and_greeks .call 1 1 0 0 (-1) 0) = true
  ∧ exceptIsOk (digital_cash_or_nothing_price .call 1 1 0 0 (-1) 0 1) = true
  ∧ exceptIsOk (forward_value 1 1 0 0 0) = true :=
  ⟨(closed_form_domain_errors_amended .call (-1) 1 0 0 1 1 1).1
      (Or.inl (by norm_num)) (by norm_num),
   (closed_form_domain_errors_amended .call (-1) 1 0 0 1 0 1).2.1
      (Or.inl (by norm_num)),
   (closed_form_domain_errors_amended .call (-1) 1 0 0 1 1 1).2.2.1
      (Or.inl (by norm_num)),
   (closed_form_domain_errors_amended .call 0 1 0 0 1 1 1).2.2.2.1
      (by norm_num) (by norm_num),
   (closed_form_domain_errors_amended .put 1 1 0 0 (-1) 1 1).2.2.2.2.1
      (by norm_num) (by norm_num),
   (closed_form_domain_errors_amended .call 1 1 0 0 (-1) 1 1).2.2.2.2.2.1
      (by norm_num) (by norm_num),
   (closed_form_domain_errors_amended .call 1 1 0 0 (-1) 0 1).2.2.2.2.2.2.1
      (by norm_num),
   (closed_form_domain_errors_amended .call 1 1 0 0 (-1) 0 1).2.2.2.2.2.2.2.1
      (by norm_num),
   (closed_form_domain_errors_amended .call 1 1 0 0 (-1) 0 1).2.2.2.2.2.2.2.2.1
      (by norm_num) (by norm_num),
   (closed_form_domain_errors_amended .call 1 1 0 0 1 0 1).2.2.2.2.2.2.2.2.2
      (by norm_num) (by norm_num) (by norm_num)⟩

/-- Adding zero Greeks on the right is the identity. -/
theorem add_greeks_zero_right (g : Greeks) : add_greeks g zero_greeks = g := by
  cases g; simp [add_greeks, zero_greeks]

/-- Adding zero Greeks on the left is the identity. -/
theorem add_greeks_zero_left (g : Greeks) : add_greeks zero_greeks g = g := by
  cases g; simp [add_greeks, zero_greeks]

/-- Componentwise Greeks addition is associative. -/
theorem add_greeks_assoc (a b c : Greeks) :
    add_greeks (add_greeks a b) c = add_greeks a (add_greeks b c) := by
  cases a; cases b; cases c; simp [add_greeks, add_assoc]

/-- A call is reported ok exactly when it returned a value. -/
theorem exceptIsOk_true_iff {α : Type} (e : Except String α) :
    exceptIsOk e = true ↔ ∃ r, e = .ok r := by
  cases e <;> simp [exceptIsOk]

/-- A call is reported failed exactly when it raised. -/
theorem exceptIsOk_false_iff {α : Type} (e : Except String α) :
    exceptIsOk e = false ↔ ∃ msg, e = .error msg := by
  cases e <;> simp [exceptIsOk]

/-- Unfolding `specTotalPrice` over a successfully priced head leg. -/
theorem specTotalPrice_cons_ok {P : Type}
    (pl : Market → String → String → P → Except String PricedLeg)
    (m : Market) (leg : Leg P) (rest : List (Leg P)) (priced : PricedLeg)
    (hpl : pl m leg.instrument_type leg.method leg.params = .ok priced) :
    specTotalPrice pl m (leg :: rest)
      = priced.price_per_unit * leg.quantity + specTotalPrice pl m rest := by
  unfold specTotalPrice
  simp [List.filter_cons, legPricedOk, hpl, exceptIsOk, okLegPrice]

/-- Unfolding `specTotalPrice` over a failing head leg. -/
theorem specTotalPrice_cons_err {P : Type}
    (pl : Market → String → String → P → Except String PricedLeg)
    (m : Market) (leg : Leg P) (rest : List (Leg P)) (msg : String)
    (hpl : pl m leg.instrument_type leg.method leg.params = .error msg) :
    specTotalPrice pl m (leg :: rest) = specTotalPrice pl m rest := by
  unfold specTotalPrice
  simp [List.filter_cons, legPricedOk, hpl, exceptIsOk]

/-- Unfolding `specTotalGreeks` over a successfully priced head leg. -/
theorem specTotalGreeks_cons_ok {P : Type}
    (pl : Market → String → String → P → Except String PricedLeg)
    (m : Market) (leg : Leg P) (rest : List (Leg P)) (priced : PricedLeg)
    (hpl : pl m leg.instrument_type leg.method leg.params = .ok priced) :
    specTotalGreeks pl m (leg :: rest)
      = add_greeks (scale_greeks priced.greeks leg.quantity)
          (specTotalGreeks pl m rest) := by
  unfold specTotalGreeks
  simp [List.filter_cons, legPricedOk, hpl, exceptIsOk, okLegGreeks]

/-- Unfolding `specTotalGreeks` over a failing head leg. -/
theorem specTotalGreeks_cons_err {P : Type}
    (pl : Market → String → String → P → Except String PricedLeg)
    (m : Market) (leg : Leg P) (rest : List (Leg P)) (msg : String)
    (hpl : pl m leg.instrument_type leg.method leg.params = .error msg) :
    specTotalGreeks pl m (leg :: rest) = specTotalGreeks pl m rest := by
  unfold specTotalGreeks
  simp [List.filter_cons, legPricedOk, hpl, exceptIsOk]

/-- The reported result dict of a successfully priced leg. -/
theorem legOutcome_ok {P : Type}
    (pl : Market → String → String → P → Except String PricedLeg)
    (m : Market) (leg : Leg P) (priced : PricedLeg)
    (hpl : pl m leg.instrument_type leg.method leg.params = .ok priced) :
    legOutcome pl m leg
      = { leg_id := leg.leg_id, instrument_type := leg.instrument_type
          method := leg.method, quantity := leg.quantity
          status := .priced priced.price_per_unit
            (priced.price_per_unit * leg.quantity) priced.greeks } := by
  unfold legOutcome
  rw [hpl]

/-- The reported result dict of a failing leg carries status="error" and
the raised message. -/
theorem legOutcome_err {P : Type}
    (pl : Market → String → String → P → Except String PricedLeg)
    (m : Market) (leg : Leg P) (msg : String)
    (hpl : pl m leg.instrument_type leg.method leg.params = .error msg) :
    legOutcome pl m leg
      = { leg_id := leg.leg_id, instrument_type := leg.instrument_type
          method := leg.method, quantity := leg.quantity
          status := .failed msg } := by
  unfold legOutcome
  rw [hpl]

/-- Accumulator-generalised form of the non-strict portfolio loop. -/
theorem portfolioGo_nonstrict {P : Type}
    (pl : Market → String → String → P → Except String PricedLeg)
    (m : Market) (legs : List (Leg P)) :
    ∀ (tp : ℝ) (tg : Greeks) (rs : List LegResult),
    portfolioGo pl m false legs tp tg rs
      = .ok (tp + specTotalPrice pl m legs,
             add_greeks tg (specTotalGreeks pl m legs),
             rs ++ legs.map (legOutcome pl m)) := by
  induction legs with
  | nil =>
    intro tp tg rs
    simp [portfolioGo, specTotalPrice, specTotalGreeks, add_greeks_zero_right]
  | cons leg rest ih =>
    intro tp tg rs
    cases hpl : pl m leg.instrument_type leg.method leg.params with
    | ok priced =>
      simp only [portfolioGo, hpl]
      rw [ih, specTotalPrice_cons_ok pl m leg rest priced hpl,
        specTotalGreeks_cons_ok pl m leg rest priced hpl, List.map_cons,
        legOutcome_ok pl m leg priced hpl]
      simp [add_assoc, add_greeks_assoc, List.append_assoc]
    | error msg =>
      simp only [portfolioGo, hpl, Bool.false_eq_true, if_false]
      rw [ih, specTotalPrice_cons_err pl m leg rest msg hpl,
        specTotalGreeks_cons_err pl m leg rest msg hpl, List.map_cons,
        legOutcome_err pl m leg msg hpl]
      simp [List.append_assoc]

/-- In strict mode, the first failing leg aborts the loop with its error,
whatever the accumulators. -/
theorem portfolioGo_strict_err {P : Type}
    (pl : Market → String → String → P → Except String PricedLeg)
    (m : Market) (bad : Leg P) (post : List (Leg P)) (msg : String)
    (hbad : pl m bad.instrument_type bad.method bad.params = .error msg) :
    ∀ (pre : List (Leg P)), (∀ l ∈ pre, legPricedOk pl m l = true) →
    ∀ (tp : ℝ) (tg : Greeks) (rs : List LegResult),
    portfolioGo pl m true (pre ++ bad :: post) tp tg rs = .error msg := by
  intro pre
  induction pre with
  | nil =>
    intro _ tp tg rs
    simp [portfolioGo, hbad]
  | cons l pre ih =>
    intro hok tp tg rs
    have hl : legPricedOk pl m l = true := hok l (List.mem_cons_self l pre)
    obtain ⟨r, hr⟩ := (exceptIsOk_true_iff _).1 hl
    simp only [List.cons_append, portfolioGo, hr]
    exact ih (fun x hx => hok x (List.mem_cons_of_mem l hx)) _ _ _

/-- Claim C4: with strict=False, `price_portfolio_with_greeks` reports
every failing leg with status="error" and the raised message while the
totals sum price and quantity-scaled Greeks over only the successfully
priced legs; with strict=True the first leg error propagates out of the
call and no totals are returned. -/
theorem portfolio_error_propagation {P : Type}
    (pl : Market → String → String → P → Except String PricedLeg)
    (m : Market) (legs pre post : List (Leg P)) (bad : Leg P) (msg : String) :
    price_portfolio_with_greeks pl m legs false
      = .ok (specTotalPrice pl m legs, specTotalGreeks pl m legs,
             legs.map (legOutcome pl m))
  ∧ (legs = pre ++ bad :: post →
      (∀ l ∈ pre, legPricedOk pl m l = true) →
      pl m bad.instrument_type bad.method bad.params = .error msg →
      price_portfolio_with_greeks pl m legs true = .error msg) := by
  constructor
  · have h := portfolioGo_nonstrict pl m legs 0 zero_greeks []
    simpa [price_portfolio_with_greeks, add_greeks_zero_left] using h
  · intro hlegs hpre hbad
    subst hlegs
    exact portfolioGo_strict_err pl m bad post msg hbad pre hpre 0 zero_greeks []

/-- Witness for C4: one priceable leg and one failing leg under the
fixture pricer, in both modes. -/
theorem portfolio_error_propagation_witness :
    price_portfolio_with_greeks plFix mFix [legOkFix, legBadFix] false
      = .ok (specTotalPrice plFix mFix [legOkFix, legBadFix],
             specTotalGreeks plFix mFix [legOkFix, legBadFix],
             [legOkFix, legBadFix].map (legOutcome plFix mFix))
  ∧ price_portfolio_with_greeks plFix mFix [legOkFix, legBadFix] true
      = .error "unsupported instrument_type" :=
  ⟨(portfolio_error_propagation plFix mFix [legOkFix, legBadFix] [legOkFix]
      [] legBadFix "unsupported instrument_type").1,
   (portfolio_error_propagation plFix mFix [legOkFix, legBadFix] [legOkFix]
      [] legBadFix "unsupported instrument_type").2 rfl
      (by intro l hl
          simp only [List.mem_singleton] at hl
          subst hl
          simp [legPricedOk, plFix, legOkFix, exceptIsOk])
      (by simp [plFix, legBadFix])⟩

/-- One scenario cell ignores a leg that raises at that cell's market:
the leg contributes exactly 0 to the fold. -/
theorem scenarioCellTotal_append_err {P : Type}
    (pl : Market → String → String → P → Except String ℝ) (m : Market)
    (legs1 legs2 : List (Leg P)) (bad : Leg P)
    (hbad : exceptIsOk (pl m bad.instrument_type bad.method bad.params) = false) :
    scenarioCellTotal pl m (legs1 ++ bad :: legs2)
      = scenarioCellTotal pl m (legs1 ++ legs2) := by
  obtain ⟨msg, hmsg⟩ := (exceptIsOk_false_iff _).1 hbad
  unfold scenarioCellTotal
  rw [List.foldl_append, List.foldl_append, List.foldl_cons]
  congr 1
  simp [hmsg]

/-- Claim C10 (implicit): in `scenario_grid_totals` a leg whose
price-only evaluation raises at a cell's bumped market contributes
exactly 0 to that cell's total, and a leg that raises at every bumped
market leaves the returned grid exactly as if it did not exist; the
output is a bare grid of floats, with no error reported anywhere. -/
theorem scenario_grid_swallows_leg_errors {P : Type}
    (pl : Market → String → String → P → Except String ℝ)
    (market : Market) (legs1 legs2 : List (Leg P)) (bad : Leg P)
    (spot_shifts_pct vol_shifts : List ℝ) (rate_shift_bps : ℝ) :
    (∀ m : Market,
       exceptIsOk (pl m bad.instrument_type bad.method bad.params) = false →
       scenarioCellTotal pl m (legs1 ++ bad :: legs2)
         = scenarioCellTotal pl m (legs1 ++ legs2))
  ∧ ((∀ m : Market,
        exceptIsOk (pl m bad.instrument_type bad.method bad.params) = false) →
      scenario_grid_totals pl market (legs1 ++ bad :: legs2) spot_shifts_pct
          vol_shifts rate_shift_bps
        = scenario_grid_totals pl market (legs1 ++ legs2) spot_shifts_pct
            vol_shifts rate_shift_bps) := by
  constructor
  · intro m hm
    exact scenarioCellTotal_append_err pl m legs1 legs2 bad hm
  · intro hall
    unfold scenario_grid_totals
    refine List.map_congr_left ?_
    intro dv _
    dsimp only
    refine List.map_congr_left ?_
    intro ds _
    dsimp only
    exact scenarioCellTotal_append_err pl _ legs1 legs2 bad (hall _)

/-- Witness for C10: the fixture grid with and without the failing leg. -/
theorem scenario_grid_swallows_leg_errors_witness :
    scenarioCellTotal plPriceFix mFix [legOkFix, legBadFix]
      = scenarioCellTotal plPriceFix mFix [legOkFix]
  ∧ scenario_grid_totals plPriceFix mFix [legOkFix, legBadFix] [0] [0] 0
      = scenario_grid_totals plPriceFix mFix [legOkFix] [0] [0] 0 :=
  ⟨(scenario_grid_swallows_leg_errors plPriceFix mFix [legOkFix] [] legBadFix
      [0] [0] 0).1 mFix (by simp [plPriceFix, legBadFix, exceptIsOk]),
   (scenario_grid_swallows_leg_errors plPriceFix mFix [legOkFix] [] legBadFix
      [0] [0] 0).2 (fun m => by simp [plPriceFix, legBadFix, exceptIsOk])⟩

end
